import Mathlib

/-!
Shallow embedding of the Income Record Manager backend (Express + Mongoose,
`src/server.js`, with the legacy variants embedded in `src/README.md`).

Records live in a single MongoDB collection; we model the collection as a
`List IncomeRecord` and each route handler as a pure function from the
request data and the server state to a response and a new state.
JavaScript numbers are modelled as rationals (`ℚ`), dates as integer epoch
milliseconds, and Mongo ObjectIds as natural numbers.
-/

namespace IncomeApi

/-- A persisted income record.  Fields mirror the mongoose schema in
`src/server.js` lines 49-75: `description` (trimmed string), `amount`
(number, min 0), `date` (date), `category` (enum string), plus the
`timestamps: true` bookkeeping fields `createdAt`/`updatedAt` and the
store-assigned `_id`. -/
structure IncomeRecord where
  _id : Nat
  description : String
  amount : ℚ
  date : Int
  category : String
  createdAt : Int
  updatedAt : Int
deriving Repr, DecidableEq

/-- The record collection, in insertion order. -/
abbrev Coll := List IncomeRecord

/-- Server state: the collection plus the next fresh id the store will
assign on insertion (`_id` values are unique and never reused). -/
structure ServerState where
  coll : Coll
  nextId : Nat
deriving Repr, DecidableEq

/-- The closed category enumeration of the schema
(`enum: ['Salary', 'Freelance', 'Investment', 'Bonus', 'Other']`,
`src/server.js` line 68). -/
def categoryEnum : List String := ["Salary", "Freelance", "Investment", "Bonus", "Other"]

/-! ### The error-handling middleware (`src/server.js` lines 178-187) -/

/-- A raised error as the middleware sees it: mongoose errors carry no
`statusCode`/`status` property, so those are `Option`s. -/
structure ErrPayload where
  statusCode : Option Int
  status : Option String
  message : String
deriving Repr, DecidableEq

/-- The JSON error response the middleware sends. -/
structure ErrResponse where
  statusCode : Int
  status : String
  message : String
deriving Repr, DecidableEq

/-- The error-handling middleware: `err.statusCode = err.statusCode || 500;
err.status = err.status || 'error'` and then
`res.status(err.statusCode).json({status, message})`. -/
def errorMiddleware (e : ErrPayload) : ErrResponse :=
  { statusCode := e.statusCode.getD 500
    status := e.status.getD "error"
    message := e.message }

/-- A mongoose `ValidationError` (or `CastError`, or a MongoDB server
error) propagated via `next(err)`: it has no `statusCode` and no
`status` own-property, only a `message`. -/
def mongooseError (msg : String) : ErrPayload :=
  { statusCode := none, status := none, message := msg }

/-! ### Create: `router.post('/records')` (`src/server.js` lines 87-106) -/

/-- A JSON scalar sent for the `amount` field: a number or a string
(mongoose casts strings to numbers). -/
inductive JVal
  | jnum (v : ℚ)
  | jstr (v : String)
deriving Repr, DecidableEq

/-- The request body of `POST /api/records` as the handler sees it.  The
handler destructures exactly `description`, `amount`, `date`, `category`
from `req.body`; `extraFields` holds every other JSON member of the body
(such as attempts to set `_id`, `createdAt` or `updatedAt`), which the
handler never reads. -/
structure CreateBody where
  description : Option String
  amount : Option JVal
  date : Option Int
  category : Option String
  extraFields : List (String × String)
deriving Repr, DecidableEq

/-- Decimal numeral digits to a natural number; `none` on a non-digit. -/
def digitsToNatAux : Nat → List Char → Option Nat
  | acc, [] => some acc
  | acc, c :: rest =>
    if c.isDigit then digitsToNatAux (acc * 10 + (c.toNat - 48)) rest
    else none

/-- Parse an unsigned decimal numeral, optionally with a fractional part.
Models the number casts the JS layer performs on plain decimal literals. -/
def parseNumCore (cs : List Char) : Option ℚ :=
  let intPart := cs.takeWhile (fun c => c.isDigit)
  let rest := cs.dropWhile (fun c => c.isDigit)
  match rest with
  | [] =>
    if intPart.isEmpty then none
    else (digitsToNatAux 0 intPart).map (fun n => (n : ℚ))
  | '.' :: fracs =>
    if intPart.isEmpty || fracs.isEmpty then none
    else
      match digitsToNatAux 0 intPart, digitsToNatAux 0 fracs with
      | some i, some f => some ((i : ℚ) + (f : ℚ) / (10 : ℚ) ^ fracs.length)
      | _, _ => none
  | _ => none

/-- Parse a (possibly negative) decimal numeral. -/
def parseNum (s : String) : Option ℚ :=
  match s.data with
  | '-' :: rest => (parseNumCore rest).map (fun x => -x)
  | l => parseNumCore l

/-- Whitespace trimming from both ends, as the mongoose `trim: true`
setter performs (JS `String.prototype.trim`). -/
def jsTrim (s : String) : String :=
  String.mk
    (((s.data.dropWhile Char.isWhitespace).reverse.dropWhile Char.isWhitespace).reverse)

/-- The `description` path validators: `required` (which for strings also
rejects the empty string), the `trim` setter, and `maxlength: 100`.
Returns the schema error message when validation fails. -/
def validateDescription : Option String → Option String
  | none => some "Description is required"
  | some d =>
    let t := jsTrim d
    if t = "" then some "Description is required"
    else if t.length > 100 then some "Description cannot exceed 100 characters"
    else none

/-- The `amount` path: cast to `Number`, `required`, `min: 0`. -/
def validateAmount : Option JVal → Except String ℚ
  | none => .error "Amount is required"
  | some (JVal.jnum a) =>
    if a < 0 then .error "Amount must be positive" else .ok a
  | some (JVal.jstr s) =>
    match parseNum s with
    | none => .error "Cast to Number failed at path amount"
    | some a => if a < 0 then .error "Amount must be positive" else .ok a

/-- The `category` path: `default: 'Other'` applies when the field is
absent; a present value must be a member of the closed enumeration,
otherwise the enum validator fails (mongoose does not normalize invalid
values). -/
def validateCategory : Option String → Except String String
  | none => .ok "Other"
  | some c =>
    if c ∈ categoryEnum then .ok c
    else .error ("\x60" ++ c ++ "\x60 is not a valid enum value for path \x60category\x60.")

/-- Field-level validation errors of a create body, in schema path order. -/
def validationErrors (b : CreateBody) : List (String × String) :=
  (match validateDescription b.description with
   | some m => [("description", m)]
   | none => []) ++
  (match validateAmount b.amount with
   | .error m => [("amount", m)]
   | .ok _ => []) ++
  (match validateCategory b.category with
   | .error m => [("category", m)]
   | .ok _ => [])

/-- Renders the collected field errors the way mongoose builds a
`ValidationError` message: `<Model> validation failed: <path>: <msg>, ...`. -/
def validationMessage (errs : List (String × String)) : String :=
  "IncomeRecord validation failed: " ++
    String.intercalate ", " (errs.map (fun e => e.1 ++ ": " ++ e.2))

/-- The handler passes `date: date || new Date()`, so an absent date — or
the falsy epoch value `0` — is replaced by the current time. -/
def dateOrNow (now : Int) : Option Int → Int
  | none => now
  | some d => if d = 0 then now else d

/-- The HTTP response of `POST /api/records`: 201 with the stored record
on success, or the error-middleware response on a validation failure. -/
structure CreateResponse where
  statusCode : Int
  status : String
  record : Option IncomeRecord
  message : Option String
deriving Repr, DecidableEq

/-- The create route handler: destructure the four known body fields,
run the schema casts/validators, and either persist a new record
(appending it to the collection with a fresh `_id` and `createdAt =
updatedAt = now`) or forward the mongoose `ValidationError` to the
error middleware, leaving the collection unchanged. -/
def createRoute (now : Int) (b : CreateBody) (st : ServerState) :
    CreateResponse × ServerState :=
  match validateDescription b.description, validateAmount b.amount,
        validateCategory b.category with
  | none, .ok a, .ok c =>
    let r0 : IncomeRecord :=
      { _id := st.nextId
        description := jsTrim (b.description.getD "")
        amount := a
        date := dateOrNow now b.date
        category := c
        createdAt := now
        updatedAt := now }
    ({ statusCode := 201, status := "success", record := some r0, message := none },
     { coll := st.coll ++ [r0], nextId := st.nextId + 1 })
  | _, _, _ =>
    let e := errorMiddleware (mongooseError (validationMessage (validationErrors b)))
    ({ statusCode := e.statusCode, status := e.status, record := none,
       message := some e.message }, st)

/-! ### Delete: `router.delete('/records/:id')` (`src/server.js` lines 154-172) -/

/-- `findByIdAndDelete` lookup half: first record with the given id. -/
def findById (id : Nat) : Coll → Option IncomeRecord
  | [] => none
  | r :: rest => if r._id = id then some r else findById id rest

/-- `findByIdAndDelete` removal half: drop the first record with the id. -/
def removeById (id : Nat) : Coll → Coll
  | [] => []
  | r :: rest => if r._id = id then rest else r :: removeById id rest

/-- The JSON response of `DELETE /api/records/:id`. -/
structure DeleteResponse where
  statusCode : Int
  status : String
  message : Option String
deriving Repr, DecidableEq

/-- The delete route handler: `findByIdAndDelete`, then 404
(`status: 'fail'`, no state change) when nothing was found, else 204
(`status: 'success', data: null`) with the record removed. -/
def deleteRoute (id : Nat) (st : ServerState) : DeleteResponse × ServerState :=
  match findById id st.coll with
  | none =>
    ({ statusCode := 404, status := "fail",
       message := some "No record found with that ID" }, st)
  | some _ =>
    ({ statusCode := 204, status := "success", message := none },
     { st with coll := removeById id st.coll })

/-! ### List: `router.get('/records')` (`src/server.js` lines 109-151)

The query string is modelled as an association list: a plain parameter
`?k=v` is `(k, QVal.s v)` and a bracketed parameter `?k[sub]=v` (the way
Express parses `?amount[gte]=100`) is `(k, QVal.o [(sub, v)])`. -/

/-- A parsed query-string value: a plain string or a one-level object. -/
inductive QVal
  | s (v : String)
  | o (kvs : List (String × String))
deriving Repr, DecidableEq

/-- `const excludedFields = ['page', 'sort', 'limit', 'fields']`. -/
def excludedFields : List String := ["page", "sort", "limit", "fields"]

/-- The comparison operator names targeted by the regex
`/\b(gte|gt|lte|lt)\b/g`. -/
def opTokens : List String := ["gte", "gt", "lte", "lt"]

/-- A regex word character (`\w`): the regex word boundaries `\b` sit at
transitions between these and everything else. -/
def wordChar (c : Char) : Bool := c.isAlphanum || c = '_'

/-- Split a character list into maximal runs of characters of the same
word/non-word class (the decomposition induced by `\b` boundaries). -/
def splitRunsAux (cur : List Char) : List Char → List (List Char)
  | [] => [cur.reverse]
  | c :: rest =>
    match cur with
    | [] => splitRunsAux [c] rest
    | d :: _ =>
      if wordChar c = wordChar d then splitRunsAux (c :: cur) rest
      else cur.reverse :: splitRunsAux [c] rest

/-- Replace a maximal run that spells one of the operator tokens by its
`$`-prefixed form. -/
def replaceRun (run : List Char) : List Char :=
  if String.mk run ∈ opTokens then '$' :: run else run

/-- The global regex substitution
`queryStr.replace(/\b(gte|gt|lte|lt)\b/g, m => '$' + m)` acting on one
string: every word-bounded occurrence of `gte`/`gt`/`lte`/`lt` gains a
`$` prefix. The route applies it to `JSON.stringify(queryObj)`, i.e. to
every key and every string value of the (one-level) query object, since
the quote and brace characters of the JSON serialization are non-word
characters and themselves contain no operator token. -/
def replaceOps (s : String) : String :=
  String.join ((splitRunsAux [] s.data).map (fun run => String.mk (replaceRun run)))

/-- The substitution applied to a query value (values of the serialized
JSON are rewritten exactly like keys). -/
def replaceQVal : QVal → QVal
  | QVal.s v => QVal.s (replaceOps v)
  | QVal.o kvs => QVal.o (kvs.map (fun kv => (replaceOps kv.1, replaceOps kv.2)))

/-- Steps 1 and 2 of the handler: copy the query, delete the
`excludedFields`, then stringify / regex-replace / parse — modelled as
applying `replaceOps` to every remaining key and value. -/
def buildQueryObj (q : List (String × QVal)) : List (String × QVal) :=
  (q.filter (fun kv => decide (kv.1 ∉ excludedFields))).map
    (fun kv => (replaceOps kv.1, replaceQVal kv.2))

/-- A field value a filter condition compares against: MongoDB compares
within a type bracket, so we distinguish strings from numbers. -/
inductive FVal
  | str (v : String)
  | num (v : ℚ)
deriving Repr, DecidableEq

/-- The schema paths mongoose casts to numbers for query purposes
(`amount`, `date` as epoch, our numeric model of `_id`). -/
def numericFields : List String := ["amount", "date", "_id"]

/-- Mongoose casting of a raw query-string value for a field: numeric
paths parse the decimal literal (a failed cast raises a `CastError`,
hence `none`); everything else stays a string. -/
def castValue (field v : String) : Option FVal :=
  if field ∈ numericFields then (parseNum v).map FVal.num
  else some (FVal.str v)

/-- Projection of a record onto a queried field name; `none` for a field
no document has. -/
def recordField (r : IncomeRecord) : String → Option FVal
  | "description" => some (FVal.str r.description)
  | "amount" => some (FVal.num r.amount)
  | "date" => some (FVal.num (r.date : ℚ))
  | "category" => some (FVal.str r.category)
  | "_id" => some (FVal.num (r._id : ℚ))
  | _ => none

/-- MongoDB comparison of two field values: defined within a type
bracket, undefined across brackets. -/
def fvalCmp : FVal → FVal → Option Ordering
  | FVal.num x, FVal.num y =>
    some (if x < y then Ordering.lt else if y < x then Ordering.gt else Ordering.eq)
  | FVal.str x, FVal.str y => some (compare x y)
  | _, _ => none

/-- The four `$`-operators on a field value vs. a cast filter value; a
cross-bracket comparison matches nothing. -/
def applyOp (op : String) (fv cv : FVal) : Bool :=
  match fvalCmp fv cv with
  | none => false
  | some o =>
    if op = "$gte" then decide (o ≠ Ordering.lt)
    else if op = "$gt" then decide (o = Ordering.gt)
    else if op = "$lte" then decide (o ≠ Ordering.gt)
    else decide (o = Ordering.lt)

/-- The translated operator names MongoDB accepts in a filter object. -/
def mongoOps : List String := ["$gte", "$gt", "$lte", "$lt"]

/-- Evaluate the operator object of one filter key against a record:
all operator clauses must hold (AND); a sub-key that is not a known
`$`-operator, or a failed cast, makes the store reject the query
(`none`); a comparison against a field the record lacks is false. -/
def condEvalOps (r : IncomeRecord) (key : String) :
    List (String × String) → Option Bool
  | [] => some true
  | (op, v) :: rest =>
    if op ∈ mongoOps then
      match castValue key v with
      | none => none
      | some cv =>
        match condEvalOps r key rest with
        | none => none
        | some b =>
          match recordField r key with
          | none => some false
          | some fv => some (applyOp op fv cv && b)
    else none

/-- Evaluate one filter entry against a record: a plain value is an
equality match (after schema casting); an object value is a conjunction
of range operators.  `none` models a query the store rejects. -/
def condEval (r : IncomeRecord) (key : String) : QVal → Option Bool
  | QVal.s raw =>
    match castValue key raw with
    | none => none
    | some cv =>
      match recordField r key with
      | none => some false
      | some fv => some (decide (fv = cv))
  | QVal.o kvs => condEvalOps r key kvs

/-- A record matches the filter iff every filter entry matches (MongoDB
applies the filter document as an AND of per-field predicates). -/
def matchesQuery (f : List (String × QVal)) (r : IncomeRecord) : Option Bool :=
  match f with
  | [] => some true
  | (k, v) :: rest =>
    match condEval r k v, matchesQuery rest r with
    | some a, some b => some (a && b)
    | _, _ => none

/-- `IncomeRecord.find(filter)` over the collection: keeps the matching
records in order, or fails when the store rejects the filter. -/
def collFilter (f : List (String × QVal)) : Coll → Option Coll
  | [] => some []
  | r :: rest =>
    match matchesQuery f r, collFilter f rest with
    | some true, some t => some (r :: t)
    | some false, some t => some t
    | _, _ => none

/-! #### Sorting (`src/server.js` lines 122-128) -/

/-- The sort tokens: `req.query.sort.split(',')`, or the default
`-date` (newest first). -/
def sortFields : Option String → List String
  | some s => s.splitOn ","
  | none => ["-date"]

/-- One mongoose sort token: a leading `-` means descending. -/
def keyCmp (tok : String) (a b : IncomeRecord) : Ordering :=
  let desc := match tok.data with | '-' :: _ => true | _ => false
  let f := if desc then String.mk (tok.data.drop 1) else tok
  let o :=
    match recordField a f, recordField b f with
    | some x, some y => (fvalCmp x y).getD Ordering.eq
    | _, _ => Ordering.eq
  if desc then o.swap else o

/-- Lexicographic combination of the sort tokens. -/
def sortCmp (toks : List String) (a b : IncomeRecord) : Ordering :=
  match toks with
  | [] => Ordering.eq
  | t :: ts =>
    match keyCmp t a b with
    | Ordering.eq => sortCmp ts a b
    | o => o

/-- The boolean "a may precede b" relation induced by the sort tokens. -/
def recordLe (toks : List String) (a b : IncomeRecord) : Bool :=
  match sortCmp toks a b with
  | Ordering.gt => false
  | _ => true

/-- Stable insertion of an element into a sorted list: it lands after
every earlier element that may precede it. -/
def insertLe {α : Type} (le : α → α → Bool) (a : α) : List α → List α
  | [] => [a]
  | b :: l => if le b a then b :: insertLe le a l else a :: b :: l

/-- Stable insertion sort — a deterministic model of the store's sort. -/
def isort {α : Type} (le : α → α → Bool) : List α → List α
  | [] => []
  | a :: l => insertLe le a (isort le l)

/-- The sorted view of the matched records. -/
def sortedRecords (toks : List String) (l : Coll) : Coll :=
  isort (recordLe toks) l

/-! #### Pagination (`src/server.js` lines 130-135) -/

/-- Look a key up in the query; only a plain string value counts (an
object value coerces to `NaN` under `* 1`). -/
def lookupStr (q : List (String × QVal)) (k : String) : Option String :=
  match q.lookup k with
  | some (QVal.s v) => some v
  | _ => none

/-- The value of a decimal mantissa: `digits`, `digits.digits`,
`.digits` or `digits.` (at least one digit overall, as JS `Number`
accepts); `none` on any other shape. -/
def mantissaVal (cs : List Char) : Option ℚ :=
  let ip := cs.takeWhile (fun c => c.isDigit)
  let rest := cs.dropWhile (fun c => c.isDigit)
  match rest with
  | [] =>
    if ip.isEmpty then none
    else (digitsToNatAux 0 ip).map (fun n => (n : ℚ))
  | '.' :: fr =>
    if ip.isEmpty && fr.isEmpty then none
    else
      match digitsToNatAux 0 ip, digitsToNatAux 0 fr with
      | some i, some f => some ((i : ℚ) + (f : ℚ) / (10 : ℚ) ^ fr.length)
      | _, _ => none
  | _ => none

/-- The optional exponent tail of a JS number literal: empty means
exponent 0; otherwise `e`/`E` followed by an optionally signed
non-empty digit string. -/
def expVal (cs : List Char) : Option Int :=
  match cs with
  | [] => some 0
  | _ :: rest =>
    match rest with
    | '-' :: ds =>
      if ds.isEmpty then none
      else (digitsToNatAux 0 ds).map (fun n => -(n : Int))
    | '+' :: ds =>
      if ds.isEmpty then none
      else (digitsToNatAux 0 ds).map (fun n => (n : Int))
    | ds =>
      if ds.isEmpty then none
      else (digitsToNatAux 0 ds).map (fun n => (n : Int))

/-- JS numeric coercion `Number(s)` (what `s * 1` computes on a
string): whitespace is trimmed, the empty string is 0, and an
optionally signed decimal literal — fractional part and `e`/`E`
exponent included — is parsed exactly; everything else is `NaN`
(`none`).  Hexadecimal/binary/octal literals and `Infinity`, which JS
also accepts, are not modelled. -/
def jsNumParse (s : String) : Option ℚ :=
  match (jsTrim s).data with
  | [] => some 0
  | cs =>
    let signAndBody :=
      match cs with
      | '-' :: rest => (true, rest)
      | '+' :: rest => (false, rest)
      | _ => (false, cs)
    let mant := signAndBody.2.takeWhile (fun c => !(c == 'e' || c == 'E'))
    let ex := signAndBody.2.dropWhile (fun c => !(c == 'e' || c == 'E'))
    match mantissaVal mant, expVal ex with
    | some m, some e =>
      let v :=
        if e = 0 then m
        else if 0 ≤ e then m * (10 : ℚ) ^ e.toNat
        else m / (10 : ℚ) ^ (-e).toNat
      some (if signAndBody.1 then -v else v)
    | _, _ => none

/-- `raw * 1 || d` on a query parameter: an absent or non-numeric value
(`NaN`) and the falsy 0 all fall back to the default; any other number
— negative and fractional ones included — passes through. -/
def jsNumOr (raw : Option String) (d : ℚ) : ℚ :=
  match raw with
  | none => d
  | some s =>
    match jsNumParse s with
    | none => d
    | some x => if x = 0 then d else x

/-- `const page = req.query.page * 1 || 1`. -/
def pageOf (q : List (String × QVal)) : ℚ := jsNumOr (lookupStr q "page") 1

/-- `const limit = req.query.limit * 1 || 10`. -/
def limitOf (q : List (String × QVal)) : ℚ := jsNumOr (lookupStr q "limit") 10

/-- `const skip = (page - 1) * limit`. -/
def skipOf (q : List (String × QVal)) : ℚ := (pageOf q - 1) * limitOf q

/-- The keys of the JSON object the list route sends on success
(`res.status(200).json({status, results, total, data})`,
`src/server.js` lines 140-147). -/
def listResponseKeys : List String := ["status", "results", "total", "data"]

/-- The success response body of `GET /api/records`. -/
structure ListResponse where
  status : String
  results : Nat
  total : Nat
  records : Coll
deriving Repr, DecidableEq

/-- The list route handler: build the filter (excluded fields dropped,
operator substitution applied), run it, sort, then
`query.skip(skip).limit(limit)`.  A store-rejected filter
(`CastError`), a negative skip (MongoDB refuses negative skip values),
or a non-integral skip or limit (MongoDB refuses those too — fractional
pages reach this point untouched) propagates to the error middleware;
`total` comes from `countDocuments` with the same filter.  MongoDB
treats a negative integral `limit` as its absolute value. -/
def listRoute (q : List (String × QVal)) (coll : Coll) :
    Except ErrResponse ListResponse :=
  let fobj := buildQueryObj q
  match collFilter fobj coll with
  | none => .error (errorMiddleware (mongooseError "Cast failed for query value"))
  | some matched =>
    let sorted := sortedRecords (sortFields (lookupStr q "sort")) matched
    let skip := skipOf q
    let limit := limitOf q
    if skip < 0 then
      .error (errorMiddleware (mongooseError "Skip value must be non-negative"))
    else if skip.den ≠ 1 ∨ limit.den ≠ 1 then
      .error (errorMiddleware (mongooseError "Expected an integer for skip and limit"))
    else
      let pageRecords := (sorted.drop skip.num.toNat).take limit.num.natAbs
      .ok { status := "success"
            results := pageRecords.length
            total := matched.length
            records := pageRecords }

/-! ### Stats: `app.get('/api/records/stats')`

This endpoint exists only in the legacy server variant embedded in
`src/README.md` (lines 292-332): a `$group: {_id: null}` pipeline for
the totals and a per-category `$group` followed by `$sort: {total: -1}`. -/

/-- Sum of the `amount` fields (`$sum: "$amount"`). -/
def sumAmounts (coll : Coll) : ℚ := (coll.map (fun r => r.amount)).sum

/-- MongoDB `$round: [x, 2]`: round to 2 decimal places, halves to the
nearest even multiple of 1/100. -/
def mongoRound2 (x : ℚ) : ℚ :=
  let y := x * 100
  let fl : Int := ⌊y⌋
  let frac := y - (fl : ℚ)
  let r : Int :=
    if frac < 1 / 2 then fl
    else if (1 : ℚ) / 2 < frac then fl + 1
    else if fl % 2 = 0 then fl else fl + 1
  (r : ℚ) / 100

/-- The `_id: null` group stage: over an empty collection the pipeline
emits no group at all (so `stats[0]` is `undefined`); otherwise one
document with `totalAmount`, `count` and the rounded `average`. -/
def statsGroup : Coll → Option (ℚ × Nat × ℚ)
  | [] => none
  | r :: rest =>
    let c := r :: rest
    some (sumAmounts c, c.length,
          mongoRound2 (sumAmounts c / (c.length : ℚ)))

/-- One per-category group document: `{_id: category, total, count}`. -/
structure CatStat where
  _id : String
  total : ℚ
  count : Nat
deriving Repr, DecidableEq

/-- The distinct categories present, in first-occurrence order — a
deterministic model of the `$group` stage's unspecified output order. -/
def categoriesOfAux (seen : List String) : Coll → List String
  | [] => []
  | r :: rest =>
    if r.category ∈ seen then categoriesOfAux seen rest
    else r.category :: categoriesOfAux (r.category :: seen) rest

/-- The distinct categories present in the collection. -/
def categoriesOf (coll : Coll) : List String := categoriesOfAux [] coll

/-- The group document of one category. -/
def catStatOf (coll : Coll) (cat : String) : CatStat :=
  { _id := cat
    total := sumAmounts (coll.filter (fun r => decide (r.category = cat)))
    count := (coll.filter (fun r => decide (r.category = cat))).length }

/-- Descending-by-total order used by `$sort: {total: -1}`; the pipeline
specifies no tie-break, so equal totals keep the grouping order. -/
def catLe (a b : CatStat) : Bool := decide (b.total ≤ a.total)

/-- The sorted per-category statistics. -/
def statsCategories (coll : Coll) : List CatStat :=
  isort catLe ((categoriesOf coll).map (catStatOf coll))

/-- The body of the stats response: `res.json({...stats[0], categories})`.
When the collection is empty `stats[0]` is `undefined`, spreading it adds
no members, so `totalAmount`/`count`/`average` are absent (`none`). -/
structure StatsResponse where
  totalAmount : Option ℚ
  count : Option Nat
  average : Option ℚ
  categories : List CatStat
deriving Repr, DecidableEq

/-- The stats route handler. -/
def statsRoute (coll : Coll) : StatsResponse :=
  match statsGroup coll with
  | none => { totalAmount := none, count := none, average := none, categories := [] }
  | some (t, c, a) =>
    { totalAmount := some t, count := some c, average := some a,
      categories := statsCategories coll }

/-! ### Top-level routing of the current server (`src/server.js`)

The app mounts the router at `/api` (line 175) and ends with the
catch-all `app.all('*')` (lines 190-195); an error-handling middleware
in between only fires on errors. -/

/-- A `path-to-regexp` `:id` segment: non-empty, no further slash. -/
def isIdSegment (s : String) : Bool := !s.data.isEmpty && !s.data.contains '/'

/-- Whether a method/path pair matches one of the three mounted routes
(`POST /api/records`, `GET /api/records`, `DELETE /api/records/:id`). -/
def matchesApiRoute (method path : String) : Bool :=
  (method = "POST" && path = "/api/records")
  || (method = "GET" && path = "/api/records")
  || (method = "DELETE" && path.startsWith "/api/records/"
      && isIdSegment (path.drop 13))

/-- A plain JSON status/message response. -/
structure SimpleResponse where
  statusCode : Int
  status : String
  message : String
deriving Repr, DecidableEq

/-- The catch-all 404 handler (`src/server.js` lines 190-195). -/
def catchAllResponse (url : String) : SimpleResponse :=
  { statusCode := 404, status := "fail",
    message := "Can\x27t find " ++ url ++ " on this server!" }

/-- Top-level dispatch of the current server: `none` means the request
reaches one of the three API handlers; any other method/path pair falls
through to the catch-all 404. -/
def appDispatch (method path : String) : Option SimpleResponse :=
  if matchesApiRoute method path then none else some (catchAllResponse path)

/-- The `GET /health` response body of the legacy server variant
embedded in `src/README.md` (lines 355-361). -/
structure HealthResponse where
  statusCode : Int
  status : String
  message : String
  timestamp : String
deriving Repr, DecidableEq

/-- The legacy `/health` handler: always 200 with a fixed status and
message and the current ISO timestamp. -/
def healthHandler (nowIso : String) : HealthResponse :=
  { statusCode := 200, status := "running",
    message := "Income Records API is operational", timestamp := nowIso }

/-! ## Helper lemmas -/

/-- A record id absent from the id list is not found. -/
theorem findById_eq_none (id : Nat) (l : Coll)
    (h : id ∉ l.map (fun r => r._id)) : findById id l = none := by
  induction l with
  | nil => rfl
  | cons r rest ih =>
    simp only [List.map_cons, List.mem_cons, not_or] at h
    have h1 : ¬ r._id = id := fun he => h.1 he.symm
    rw [findById, if_neg h1]
    exact ih h.2

/-- Deleting a found record shrinks the collection by exactly one. -/
theorem removeById_length (id : Nat) (l : Coll)
    (h : (findById id l).isSome) :
    (removeById id l).length + 1 = l.length := by
  induction l with
  | nil => simp [findById] at h
  | cons r rest ih =>
    by_cases he : r._id = id
    · simp [removeById, he]
    · rw [findById, if_neg he] at h
      simp only [removeById, if_neg he, List.length_cons]
      rw [← ih h]

/-- With unique ids, a deleted record is no longer found. -/
theorem findById_removeById (id : Nat) (l : Coll)
    (h : (l.map (fun r => r._id)).Nodup) :
    findById id (removeById id l) = none := by
  induction l with
  | nil => rfl
  | cons r rest ih =>
    simp only [List.map_cons, List.nodup_cons] at h
    by_cases he : r._id = id
    · rw [removeById, if_pos he]
      exact findById_eq_none id rest (he ▸ h.1)
    · rw [removeById, if_neg he, findById, if_neg he]
      exact ih h.2

/-! ## Claims -/

/-- C1: deleting an existing id returns 204 and removes the record;
deleting an absent id returns 404 without changing the collection; a
repeated delete of the same id therefore returns 404.  (Ids are
store-assigned and unique, hence the `Nodup` hypothesis.) -/
theorem delete_then_redelete_claim (id : Nat) (st : ServerState)
    (hu : (st.coll.map (fun r => r._id)).Nodup) :
    ((findById id st.coll).isSome →
      (deleteRoute id st).1.statusCode = 204 ∧
      (deleteRoute id st).2.coll.length + 1 = st.coll.length ∧
      findById id (deleteRoute id st).2.coll = none ∧
      (deleteRoute id (deleteRoute id st).2).1.statusCode = 404) ∧
    (findById id st.coll = none →
      (deleteRoute id st).1.statusCode = 404 ∧ (deleteRoute id st).2 = st) := by
  constructor
  · intro h
    obtain ⟨r, hr⟩ := Option.isSome_iff_exists.mp h
    have hlen := removeById_length id st.coll h
    have h2 := findById_removeById id st.coll hu
    refine ⟨?_, ?_, ?_, ?_⟩ <;> simp [deleteRoute, hr, hlen, h2]
  · intro h
    simp [deleteRoute, h]

/-- Witness for C1: on a one-record collection, the first delete of id 1
returns 204 and the immediate second delete returns 404. -/
theorem delete_then_redelete_witness :
    (deleteRoute 1 ⟨[⟨1, "a", 5, 1, "Salary", 0, 0⟩], 2⟩).1.statusCode = 204 ∧
    (deleteRoute 1 (deleteRoute 1 ⟨[⟨1, "a", 5, 1, "Salary", 0, 0⟩], 2⟩).2).1.statusCode = 404 := by
  have h := delete_then_redelete_claim 1 ⟨[⟨1, "a", 5, 1, "Salary", 0, 0⟩], 2⟩ (by decide)
  have h1 := h.1 (by decide)
  exact ⟨h1.1, h1.2.2.2⟩

/-- A category accepted by the enum validator is in the closed set. -/
theorem validateCategory_ok_mem (x : Option String) (c : String)
    (h : validateCategory x = .ok c) : c ∈ categoryEnum := by
  cases x with
  | none =>
    simp only [validateCategory] at h
    cases h
    decide
  | some v =>
    by_cases hv : v ∈ categoryEnum
    · rw [validateCategory, if_pos hv] at h
      cases h
      exact hv
    · rw [validateCategory, if_neg hv] at h
      cases h

/-- C2: a negative amount always makes `create` fail validation (no
record persisted, error response); amount 0 with otherwise valid fields
is accepted and the record is appended to the collection. -/
theorem create_amount_claim (now : Int) (b : CreateBody) (st : ServerState) :
    (∀ a : ℚ, b.amount = some (JVal.jnum a) → a < 0 →
      (createRoute now b st).1.record = none ∧
      (createRoute now b st).1.status = "error" ∧
      (createRoute now b st).2 = st) ∧
    (b.amount = some (JVal.jnum 0) →
     validateDescription b.description = none →
     (∀ c, b.category = some c → c ∈ categoryEnum) →
      (createRoute now b st).1.statusCode = 201 ∧
      ∃ r0, (createRoute now b st).2.coll = st.coll ++ [r0] ∧
        r0.amount = 0 ∧ (createRoute now b st).1.record = some r0) := by
  constructor
  · intro a ha hneg
    have hA : validateAmount b.amount = .error "Amount must be positive" := by
      rw [ha]; simp [validateAmount, hneg]
    cases hd : validateDescription b.description <;>
      cases hc : validateCategory b.category <;>
        simp [createRoute, errorMiddleware, mongooseError, hd, hA, hc]
  · intro ha hd hcat
    have hA : validateAmount b.amount = .ok 0 := by
      rw [ha]; simp [validateAmount]
    obtain ⟨cv, hC⟩ : ∃ cv, validateCategory b.category = .ok cv := by
      cases hb : b.category with
      | none => exact ⟨"Other", rfl⟩
      | some c =>
        refine ⟨c, ?_⟩
        rw [validateCategory, if_pos (hcat c hb)]
    refine ⟨?_, ?_⟩ <;> simp [createRoute, hd, hA, hC]

/-- Witness for C2: a create with amount -1 is rejected leaving the
state unchanged; a create with amount 0 succeeds with 201. -/
theorem create_amount_witness :
    (createRoute 0 ⟨some "a", some (JVal.jnum (-1)), none, none, []⟩ ⟨[], 0⟩).1.record = none ∧
    (createRoute 0 ⟨some "a", some (JVal.jnum (-1)), none, none, []⟩ ⟨[], 0⟩).2 = ⟨[], 0⟩ ∧
    (createRoute 0 ⟨some "a", some (JVal.jnum 0), none, none, []⟩ ⟨[], 0⟩).1.statusCode = 201 := by
  have h1 := (create_amount_claim 0 ⟨some "a", some (JVal.jnum (-1)), none, none, []⟩ ⟨[], 0⟩).1
    (-1) rfl (by norm_num)
  have h2 := (create_amount_claim 0 ⟨some "a", some (JVal.jnum 0), none, none, []⟩ ⟨[], 0⟩).2
    rfl (by decide) (by intro c hc; cases hc)
  exact ⟨h1.1, h1.2.2, h2.1⟩

/-- C3 counterexample: a create whose category is not in the closed
enumeration is rejected by the enum validator — nothing is persisted at
all, so no record with category "Other" is stored. -/
theorem create_category_cex :
    (createRoute 0 ⟨some "a", some (JVal.jnum 1), some 5, some "Food", []⟩ ⟨[], 0⟩).1.record = none ∧
    (createRoute 0 ⟨some "a", some (JVal.jnum 1), some 5, some "Food", []⟩ ⟨[], 0⟩).2.coll = [] := by
  decide

/-- C3 (amended): an omitted category defaults to "Other"; a provided
category outside the closed set fails validation and persists nothing;
every record this handler does persist has a category in the closed set. -/
theorem create_category_claim (now : Int) (b : CreateBody) (st : ServerState) :
    (b.category = none →
      ∀ r0, (createRoute now b st).1.record = some r0 → r0.category = "Other") ∧
    (∀ c, b.category = some c → c ∉ categoryEnum →
      (createRoute now b st).1.record = none ∧ (createRoute now b st).2 = st) ∧
    (∀ r0, (createRoute now b st).1.record = some r0 → r0.category ∈ categoryEnum) := by
  refine ⟨?_, ?_, ?_⟩
  · intro hb r0
    have hC : validateCategory b.category = .ok "Other" := by rw [hb]; rfl
    cases hd : validateDescription b.description <;>
      cases hA : validateAmount b.amount <;>
        simp [createRoute, errorMiddleware, mongooseError, hd, hA, hC]
    intro h
    rw [← h]
  · intro c hb hmem
    have hC : validateCategory b.category =
        .error ("\x60" ++ c ++ "\x60 is not a valid enum value for path \x60category\x60.") := by
      rw [hb, validateCategory, if_neg hmem]
    cases hd : validateDescription b.description <;>
      cases hA : validateAmount b.amount <;>
        simp [createRoute, errorMiddleware, mongooseError, hd, hA, hC]
  · intro r0
    cases hd : validateDescription b.description <;>
      cases hA : validateAmount b.amount <;>
        cases hC : validateCategory b.category <;>
          simp [createRoute, errorMiddleware, mongooseError, hd, hA, hC]
    intro h
    rw [← h]
    exact validateCategory_ok_mem b.category _ hC

/-- Witness for C3: with category omitted the stored record's category
is "Other"; a record stored with category "Salary" is in the closed set. -/
theorem create_category_witness :
    (createRoute 0 ⟨some "a", some (JVal.jnum 1), some 5, none, []⟩ ⟨[], 0⟩).1.record =
      some ⟨0, "a", 1, 5, "Other", 0, 0⟩ ∧
    ("Other" : String) = "Other" ∧
    (createRoute 0 ⟨some "a", some (JVal.jnum 1), some 5, some "Food", []⟩ ⟨[], 0⟩).1.record = none := by
  refine ⟨by decide, ?_, ?_⟩
  · exact (create_category_claim 0 ⟨some "a", some (JVal.jnum 1), some 5, none, []⟩ ⟨[], 0⟩).1
      rfl ⟨0, "a", 1, 5, "Other", 0, 0⟩ (by decide)
  · exact ((create_category_claim 0 ⟨some "a", some (JVal.jnum 1), some 5, some "Food", []⟩ ⟨[], 0⟩).2.1
      "Food" rfl (by decide)).1

/-- C7 counterexample: a create failing the `min: 0` validator is
surfaced with HTTP status 500, not 400 — the error middleware defaults
`err.statusCode || 500` and mongoose validation errors carry no
`statusCode`. -/
theorem create_http_status_cex :
    (createRoute 0 ⟨some "a", some (JVal.jnum (-5)), some 5, none, []⟩ ⟨[], 0⟩).1.statusCode = 500 ∧
    ((500 : Int) = 400 → False) := by
  decide

/-- C7 (amended): every create that fails validation is answered with
status 500 (the middleware default, since mongoose errors carry no
`statusCode`), status string "error", the mongoose validation message
listing the failing fields, and no state change. -/
theorem create_error_response_claim (now : Int) (b : CreateBody) (st : ServerState)
    (h : validationErrors b ≠ []) :
    (createRoute now b st).1.statusCode = 500 ∧
    (createRoute now b st).1.status = "error" ∧
    (createRoute now b st).1.message = some (validationMessage (validationErrors b)) ∧
    (createRoute now b st).1.record = none ∧
    (createRoute now b st).2 = st := by
  cases hd : validateDescription b.description with
  | some m =>
    cases hA : validateAmount b.amount <;>
      cases hC : validateCategory b.category <;>
        simp [createRoute, errorMiddleware, mongooseError, hd, hA, hC]
  | none =>
    cases hA : validateAmount b.amount with
    | error m =>
      cases hC : validateCategory b.category <;>
        simp [createRoute, errorMiddleware, mongooseError, hd, hA, hC]
    | ok a =>
      cases hC : validateCategory b.category with
      | error m =>
        simp [createRoute, errorMiddleware, mongooseError, hd, hA, hC]
      | ok c =>
        exact absurd (by simp [validationErrors, hd, hA, hC]) h

/-- Witness for C7: the amount -5 create is answered with status 500. -/
theorem create_error_response_witness :
    (createRoute 0 ⟨some "a", some (JVal.jnum (-5)), some 5, none, []⟩ ⟨[], 0⟩).1.statusCode = 500 :=
  (create_error_response_claim 0 ⟨some "a", some (JVal.jnum (-5)), some 5, none, []⟩ ⟨[], 0⟩
    (by decide)).1

/-- C9 counterexample: in the current server (`src/server.js`) no route
matches `GET /health`, so the catch-all answers 404 — not 200. -/
theorem health_route_cex :
    appDispatch "GET" "/health" =
      some { statusCode := 404, status := "fail",
             message := "Can\x27t find /health on this server!" } ∧
    ((404 : Int) = 200 → False) := by
  decide

/-- C9 (amended): on the current server `GET /health` falls through to
the catch-all and is answered 404 with the "Can't find ..." body; the
200 `{status: "running", message, timestamp}` response exists only in
the legacy server variant embedded in the README, whose handler always
returns it. -/
theorem health_route_claim (nowIso : String) :
    (∃ resp, appDispatch "GET" "/health" = some resp ∧
      resp.statusCode = 404 ∧ resp.status = "fail") ∧
    (healthHandler nowIso).statusCode = 200 ∧
    (healthHandler nowIso).status = "running" ∧
    (healthHandler nowIso).message = "Income Records API is operational" ∧
    (healthHandler nowIso).timestamp = nowIso := by
  exact ⟨⟨catchAllResponse "/health", by decide, rfl, rfl⟩, rfl, rfl, rfl, rfl⟩

/-- C10: the persisted record depends only on the body's `description`,
`amount`, `date` and `category`; any extra body members — including
attempts to set `_id`, `createdAt` or `updatedAt` — are ignored, so two
bodies agreeing on the four fields yield identical responses and states
at the same creation time. -/
theorem create_extra_fields_ignored (now : Int) (b1 b2 : CreateBody) (st : ServerState)
    (h1 : b1.description = b2.description) (h2 : b1.amount = b2.amount)
    (h3 : b1.date = b2.date) (h4 : b1.category = b2.category) :
    createRoute now b1 st = createRoute now b2 st := by
  cases b1
  cases b2
  dsimp only at h1 h2 h3 h4
  subst h1
  subst h2
  subst h3
  subst h4
  rfl

/-- Witness for C10: a body smuggling `_id` and `createdAt` members
produces exactly the same outcome as the clean body. -/
theorem create_extra_fields_ignored_witness :
    createRoute 0 ⟨some "a", some (JVal.jnum 1), some 5, some "Salary",
        [("_id", "999"), ("createdAt", "2020")]⟩ ⟨[], 0⟩ =
    createRoute 0 ⟨some "a", some (JVal.jnum 1), some 5, some "Salary", []⟩ ⟨[], 0⟩ :=
  create_extra_fields_ignored 0 _ _ _ rfl rfl rfl rfl

/-- One filter entry on top of a filter list: both must hold. -/
theorem matchesQuery_cons (k : String) (v : QVal) (rest : List (String × QVal))
    (r : IncomeRecord) :
    matchesQuery ((k, v) :: rest) r = some true ↔
      condEval r k v = some true ∧ matchesQuery rest r = some true := by
  rcases hc : condEval r k v with _ | a <;>
    rcases hm : matchesQuery rest r with _ | b <;>
      simp [matchesQuery, hc, hm]

/-- The filter document is an AND of its per-field conditions. -/
theorem matchesQuery_eq_true_iff (f : List (String × QVal)) (r : IncomeRecord) :
    matchesQuery f r = some true ↔ ∀ kv ∈ f, condEval r kv.1 kv.2 = some true := by
  induction f with
  | nil => simp [matchesQuery]
  | cons kv rest ih =>
    cases kv with
    | mk k v => rw [matchesQuery_cons, ih]; simp

/-- A successful `find` returns exactly the sublist of matching records. -/
theorem collFilter_eq_some (f : List (String × QVal)) (l m : Coll)
    (h : collFilter f l = some m) :
    m = l.filter (fun r => decide (matchesQuery f r = some true)) := by
  induction l generalizing m with
  | nil =>
    simp only [collFilter] at h
    cases h
    rfl
  | cons r rest ih =>
    rw [collFilter] at h
    rcases hr : matchesQuery f r with _ | b
    · rw [hr] at h; cases h
    · rw [hr] at h
      rcases ht : collFilter f rest with _ | t
      · rw [ht] at h; cases b <;> cases h
      · rw [ht] at h
        cases b
        · obtain rfl := Option.some.inj h
          rw [List.filter_cons, if_neg (by simp [hr])]
          exact ih _ ht
        · obtain rfl := Option.some.inj h
          rw [List.filter_cons, if_pos (by simp [hr])]
          rw [← ih _ ht]

/-- Membership in a successful `find` result. -/
theorem mem_collFilter (f : List (String × QVal)) (l m : Coll)
    (h : collFilter f l = some m) (r : IncomeRecord) :
    r ∈ m ↔ r ∈ l ∧ matchesQuery f r = some true := by
  rw [collFilter_eq_some f l m h]
  simp [List.mem_filter]

/-- C4 counterexample: the success body of `GET /api/records` carries the
keys `status`, `results`, `total` and `data` only — there is no
`totalPages` member to equal `ceil(total/limit)`. -/
theorem list_totalPages_cex :
    ("totalPages" ∈ listResponseKeys) = False ∧ "total" ∈ listResponseKeys := by
  decide

/-- C4 (amended): with a store-accepted filter, page and limit at least
1, and integral skip and limit (the store rejects non-integral values,
which fractional query strings produce), the list response is `.ok` and
returns exactly the slice of the filtered, sorted records starting at
`skip = (page-1)*limit` of length at most `limit`, together with
`total` = the count of all records matching the filter ignoring
pagination; `page` defaults to 1 and `limit` to 10 when absent.  No
`totalPages` field is produced (it appears only in the legacy server
variant embedded in the README). -/
theorem list_pagination_claim (q : List (String × QVal)) (coll matched : Coll)
    (hm : collFilter (buildQueryObj q) coll = some matched)
    (hp : 1 ≤ pageOf q) (hl : 1 ≤ limitOf q)
    (hsd : (skipOf q).den = 1) (hld : (limitOf q).den = 1) :
    ∃ resp, listRoute q coll = .ok resp ∧
      resp.records = ((sortedRecords (sortFields (lookupStr q "sort")) matched).drop
          (skipOf q).num.toNat).take (limitOf q).num.toNat ∧
      resp.records.length ≤ (limitOf q).num.toNat ∧
      resp.total = matched.length ∧
      resp.results = resp.records.length ∧
      resp.status = "success" ∧
      (lookupStr q "page" = none → pageOf q = 1) ∧
      (lookupStr q "limit" = none → limitOf q = 10) := by
  have hskip : ¬ skipOf q < 0 := by
    rw [skipOf]
    exact not_lt.mpr (mul_nonneg (sub_nonneg.mpr hp) (le_trans zero_le_one hl))
  have hlnum : 0 ≤ (limitOf q).num := Rat.num_nonneg.mpr (le_trans zero_le_one hl)
  have hna : (limitOf q).num.natAbs = (limitOf q).num.toNat := by omega
  have hroute : listRoute q coll = .ok
      { status := "success"
        results := (((sortedRecords (sortFields (lookupStr q "sort")) matched).drop
            (skipOf q).num.toNat).take (limitOf q).num.natAbs).length
        total := matched.length
        records := ((sortedRecords (sortFields (lookupStr q "sort")) matched).drop
            (skipOf q).num.toNat).take (limitOf q).num.natAbs } := by
    rw [listRoute]
    simp only [hm, hskip, if_false, hsd, hld, ne_eq, not_true_eq_false, or_self]
  refine ⟨_, hroute, ?_, ?_, rfl, rfl, rfl, ?_, ?_⟩
  · simp only [hna]
  · simp only [List.length_take, hna]
    exact Nat.min_le_left _ _
  · intro h
    rw [pageOf, h]
    rfl
  · intro h
    rw [limitOf, h]
    rfl

/-- Witness for C4: a category filter over a two-record collection with
page 2 and limit 1 returns the second record of the sorted matches. -/
theorem list_pagination_witness :
    ∃ resp,
      listRoute [("page", QVal.s "2"), ("limit", QVal.s "1")]
        [⟨1, "a", 5, 1, "Salary", 0, 0⟩, ⟨2, "b", 7, 2, "Bonus", 0, 0⟩] = .ok resp ∧
      resp.records =
        ((sortedRecords (sortFields (lookupStr [("page", QVal.s "2"), ("limit", QVal.s "1")] "sort"))
            [⟨1, "a", 5, 1, "Salary", 0, 0⟩, ⟨2, "b", 7, 2, "Bonus", 0, 0⟩]).drop
          (skipOf [("page", QVal.s "2"), ("limit", QVal.s "1")]).num.toNat).take
          (limitOf [("page", QVal.s "2"), ("limit", QVal.s "1")]).num.toNat ∧
      resp.records.length ≤ (limitOf [("page", QVal.s "2"), ("limit", QVal.s "1")]).num.toNat ∧
      resp.total = 2 ∧
      resp.results = resp.records.length ∧
      resp.status = "success" ∧
      (lookupStr [("page", QVal.s "2"), ("limit", QVal.s "1")] "page" = none →
        pageOf [("page", QVal.s "2"), ("limit", QVal.s "1")] = 1) ∧
      (lookupStr [("page", QVal.s "2"), ("limit", QVal.s "1")] "limit" = none →
        limitOf [("page", QVal.s "2"), ("limit", QVal.s "1")] = 10) := by
  have hp2 : pageOf [("page", QVal.s "2"), ("limit", QVal.s "1")] = 2 := by decide
  have hl1 : limitOf [("page", QVal.s "2"), ("limit", QVal.s "1")] = 1 := by decide
  exact list_pagination_claim [("page", QVal.s "2"), ("limit", QVal.s "1")]
    [⟨1, "a", 5, 1, "Salary", 0, 0⟩, ⟨2, "b", 7, 2, "Bonus", 0, 0⟩]
    [⟨1, "a", 5, 1, "Salary", 0, 0⟩, ⟨2, "b", 7, 2, "Bonus", 0, 0⟩]
    (by decide) (by rw [hp2]; norm_num) (by rw [hl1])
    (by rw [skipOf, hp2, hl1]; norm_num) (by rw [hl1]; norm_num)

/-- C5 counterexample: the string substitution also rewrites filter
values — a filter whose value is the word `gt` reaches the store as the
different value `$gt`, so the translation does not affect only the key
suffixes. -/
theorem advanced_filter_cex :
    buildQueryObj [("description", QVal.s "gt")] = [("description", QVal.s "$gt")] ∧
    QVal.s "$gt" ≠ QVal.s "gt" := by
  decide

/-- An operator token picks up the `$` prefix under the substitution. -/
theorem replaceOps_opToken (op : String) (h : op ∈ opTokens) :
    replaceOps op = "$" ++ op := by
  simp only [opTokens, List.mem_cons, List.mem_singleton] at h
  rcases h with rfl | rfl | rfl | rfl | h
  · decide
  · decide
  · decide
  · decide
  · cases h

/-- The `$gte` clause on the numeric `amount` field is the ≥ condition. -/
theorem applyOp_gte_num (a x : ℚ) :
    applyOp "$gte" (FVal.num a) (FVal.num x) = decide (x ≤ a) := by
  rcases lt_trichotomy a x with h | h | h
  · simp [applyOp, fvalCmp, h, not_le.mpr h]
  · subst h
    simp [applyOp, fvalCmp, lt_irrefl]
  · simp [applyOp, fvalCmp, h, not_lt.mpr h.le, le_of_lt h]

/-- C5 (amended): filter parameters other than `page`, `sort`, `limit`
and `fields` are applied as an AND of per-field predicates, and an
operator sub-key `gte`/`gt`/`lte`/`lt` is translated to the `$`-prefixed
range operator (shown concretely: `amount[$gte]` becomes the ≥
condition); however the substitution is applied to the whole serialized
filter, so filter values are rewritten by exactly the same rule rather
than being left untouched. -/
theorem advanced_filter_claim (q : List (String × QVal)) (coll matched : Coll)
    (r : IncomeRecord)
    (hm : collFilter (buildQueryObj q) coll = some matched) :
    (r ∈ matched ↔ r ∈ coll ∧ matchesQuery (buildQueryObj q) r = some true) ∧
    (matchesQuery (buildQueryObj q) r = some true ↔
      ∀ kv ∈ buildQueryObj q, condEval r kv.1 kv.2 = some true) ∧
    (∀ fld op v, op ∈ opTokens → fld ∉ excludedFields →
      replaceOps fld = fld → replaceOps v = v →
      buildQueryObj [(fld, QVal.o [(op, v)])] = [(fld, QVal.o [("$" ++ op, v)])]) ∧
    (∀ x s, parseNum s = some x →
      condEval r "amount" (QVal.o [("$gte", s)]) = some (decide (x ≤ r.amount))) ∧
    (∀ fld v, fld ∉ excludedFields → replaceOps fld = fld →
      buildQueryObj [(fld, QVal.s v)] = [(fld, QVal.s (replaceOps v))]) := by
  refine ⟨mem_collFilter _ _ _ hm r, matchesQuery_eq_true_iff _ r, ?_, ?_, ?_⟩
  · intro fld op v hop hfld hrf hrv
    simp [buildQueryObj, hfld, replaceQVal, hrf, hrv, replaceOps_opToken op hop]
  · intro x s hs
    have hcast : castValue "amount" s = some (FVal.num x) := by
      simp [castValue, numericFields, hs]
    simp [condEval, condEvalOps, mongoOps, hcast, recordField, applyOp_gte_num]
  · intro fld v hfld hrf
    simp [buildQueryObj, hfld, replaceQVal, hrf]

/-- Witness for C5: the claim instantiated on a one-record collection
with a category filter. -/
theorem advanced_filter_witness :
    ((⟨1, "a", 5, 1, "Salary", 0, 0⟩ : IncomeRecord) ∈ [(⟨1, "a", 5, 1, "Salary", 0, 0⟩ : IncomeRecord)] ↔
      (⟨1, "a", 5, 1, "Salary", 0, 0⟩ : IncomeRecord) ∈ [(⟨1, "a", 5, 1, "Salary", 0, 0⟩ : IncomeRecord)] ∧
      matchesQuery (buildQueryObj [("category", QVal.s "Salary")]) ⟨1, "a", 5, 1, "Salary", 0, 0⟩ = some true) ∧
    (matchesQuery (buildQueryObj [("category", QVal.s "Salary")]) ⟨1, "a", 5, 1, "Salary", 0, 0⟩ = some true ↔
      ∀ kv ∈ buildQueryObj [("category", QVal.s "Salary")],
        condEval ⟨1, "a", 5, 1, "Salary", 0, 0⟩ kv.1 kv.2 = some true) ∧
    (∀ fld op v, op ∈ opTokens → fld ∉ excludedFields →
      replaceOps fld = fld → replaceOps v = v →
      buildQueryObj [(fld, QVal.o [(op, v)])] = [(fld, QVal.o [("$" ++ op, v)])]) ∧
    (∀ x s, parseNum s = some x →
      condEval ⟨1, "a", 5, 1, "Salary", 0, 0⟩ "amount" (QVal.o [("$gte", s)]) =
        some (decide (x ≤ (⟨1, "a", 5, 1, "Salary", 0, 0⟩ : IncomeRecord).amount))) ∧
    (∀ fld v, fld ∉ excludedFields → replaceOps fld = fld →
      buildQueryObj [(fld, QVal.s v)] = [(fld, QVal.s (replaceOps v))]) :=
  advanced_filter_claim [("category", QVal.s "Salary")]
    [⟨1, "a", 5, 1, "Salary", 0, 0⟩] [⟨1, "a", 5, 1, "Salary", 0, 0⟩]
    ⟨1, "a", 5, 1, "Salary", 0, 0⟩ (by decide)

/-- C8 counterexample: neither clamping nor a 400 rejection happens for
values below 1.  `page = -1` passes through, the skip offset is computed
as -20 and handed to the store, whose rejection surfaces as a 500
response; likewise the fractional `page = 0.5` coerces to the number
1/2, giving skip -5 and the same 500 outcome. -/
theorem pagination_clamp_cex :
    pageOf [("page", QVal.s "-1")] = -1 ∧
    skipOf [("page", QVal.s "-1")] = -20 ∧
    listRoute [("page", QVal.s "-1")] [] =
      .error { statusCode := 500, status := "error",
               message := "Skip value must be non-negative" } ∧
    pageOf [("page", QVal.s "0.5")] = 1 / 2 ∧
    skipOf [("page", QVal.s "0.5")] = -5 ∧
    listRoute [("page", QVal.s "0.5")] [] =
      .error { statusCode := 500, status := "error",
               message := "Skip value must be non-negative" } := by
  have hp1 : pageOf [("page", QVal.s "-1")] = -1 := by decide
  have hl1 : limitOf [("page", QVal.s "-1")] = 10 := by decide
  have hs1 : skipOf [("page", QVal.s "-1")] = -20 := by
    rw [skipOf, hp1, hl1]
    norm_num
  have hparse : jsNumParse "0.5" =
      some (((0 : Nat) : ℚ) + ((5 : Nat) : ℚ) / (10 : ℚ) ^ (1 : Nat)) := by
    rfl
  have hval : (((0 : Nat) : ℚ) + ((5 : Nat) : ℚ) / (10 : ℚ) ^ (1 : Nat)) = 1 / 2 := by
    norm_num
  have hp2 : pageOf [("page", QVal.s "0.5")] = 1 / 2 := by
    rw [pageOf, show lookupStr [("page", QVal.s "0.5")] "page" = some "0.5" from rfl,
       jsNumOr, hparse, hval]
    norm_num
  have hl2 : limitOf [("page", QVal.s "0.5")] = 10 := by decide
  have hs2 : skipOf [("page", QVal.s "0.5")] = -5 := by
    rw [skipOf, hp2, hl2]
    norm_num
  have hcf1 : collFilter (buildQueryObj [("page", QVal.s "-1")]) [] = some [] := by decide
  have hcf2 : collFilter (buildQueryObj [("page", QVal.s "0.5")]) [] = some [] := by decide
  refine ⟨hp1, hs1, ?_, hp2, hs2, ?_⟩
  · rw [listRoute]
    simp only [hcf1]
    rw [if_pos (by rw [hs1]; norm_num)]
    rfl
  · rw [listRoute]
    simp only [hcf2]
    rw [if_pos (by rw [hs2]; norm_num)]
    rfl

/-- C8 (amended): `page = 0` and `limit = 0` fall back to the defaults 1
and 10 through JavaScript falsiness (as do absent and non-numeric
values), and with page and limit at least 1 the skip offset is
nonnegative; but every other below-1 page value — negative or
fractional — passes through the JS numeric coercion unchanged, making
the skip offset negative whenever limit is positive; the query is then
executed with that negative skip, which the store rejects, so the route
never returns a success response (the failure surfaces as 500, not 400,
and no clamping happens). -/
theorem pagination_claim (q : List (String × QVal)) (coll : Coll) :
    (lookupStr q "page" = some "0" → pageOf q = 1) ∧
    (lookupStr q "limit" = some "0" → limitOf q = 10) ∧
    (1 ≤ pageOf q → 1 ≤ limitOf q → 0 ≤ skipOf q) ∧
    (pageOf q < 1 → 0 < limitOf q → skipOf q < 0) ∧
    (skipOf q < 0 → ∀ resp : ListResponse, listRoute q coll ≠ .ok resp) := by
  refine ⟨?_, ?_, ?_, ?_, ?_⟩
  · intro h
    rw [pageOf, h]
    decide
  · intro h
    rw [limitOf, h]
    decide
  · intro hp hl
    rw [skipOf]
    exact mul_nonneg (sub_nonneg.mpr hp) (le_trans zero_le_one hl)
  · intro hp hl
    rw [skipOf]
    exact mul_neg_of_neg_of_pos (sub_neg.mpr hp) hl
  · intro hneg resp
    rw [listRoute]
    rcases hcf : collFilter (buildQueryObj q) coll with _ | m <;>
      simp [hcf, hneg]

/-- Witness for C8: page "0" is treated as page 1; page "-1" is below 1
with the default positive limit, so the skip offset is negative and the
route does not return a success response. -/
theorem pagination_witness :
    pageOf [("page", QVal.s "0")] = 1 ∧
    skipOf [("page", QVal.s "-1")] < 0 ∧
    listRoute [("page", QVal.s "-1")] [] ≠
      .ok { status := "success", results := 0, total := 0, records := [] } := by
  have hs : skipOf [("page", QVal.s "-1")] < 0 :=
    (pagination_claim [("page", QVal.s "-1")] []).2.2.2.1 (by decide) (by decide)
  exact ⟨(pagination_claim [("page", QVal.s "0")] []).1 (by decide), hs,
    (pagination_claim [("page", QVal.s "-1")] []).2.2.2.2 hs
      { status := "success", results := 0, total := 0, records := [] }⟩

/-- Membership under stable insertion. -/
theorem mem_insertLe {α : Type} (le : α → α → Bool) (a x : α) (l : List α) :
    x ∈ insertLe le a l ↔ x = a ∨ x ∈ l := by
  induction l with
  | nil => simp [insertLe]
  | cons b t ih =>
    by_cases h : le b a
    · rw [insertLe, if_pos h]
      simp only [List.mem_cons, ih]
      tauto
    · rw [insertLe, if_neg h]
      simp only [List.mem_cons]


/-- Insertion produces a permutation of the cons. -/
theorem insertLe_perm {α : Type} (le : α → α → Bool) (a : α) (l : List α) :
    List.Perm (insertLe le a l) (a :: l) := by
  induction l with
  | nil => exact List.Perm.refl _
  | cons b t ih =>
    by_cases h : le b a
    · rw [insertLe, if_pos h]
      exact (ih.cons b).trans (List.Perm.swap a b t)
    · rw [insertLe, if_neg h]

/-- Insertion sort permutes its input. -/
theorem isort_perm {α : Type} (le : α → α → Bool) (l : List α) :
    List.Perm (isort le l) l := by
  induction l with
  | nil => exact List.Perm.refl _
  | cons a t ih => exact (insertLe_perm le a (isort le t)).trans (ih.cons a)

/-- Insertion into a sorted list keeps it sorted, given a total and
transitive comparison. -/
theorem pairwise_insertLe {α : Type} (le : α → α → Bool)
    (htot : ∀ a b, le a b = true ∨ le b a = true)
    (htr : ∀ a b c, le a b = true → le b c = true → le a c = true)
    (a : α) (l : List α) (h : l.Pairwise (fun x y => le x y = true)) :
    (insertLe le a l).Pairwise (fun x y => le x y = true) := by
  induction l with
  | nil => simp [insertLe]
  | cons b t ih =>
    rcases List.pairwise_cons.mp h with ⟨hb, ht⟩
    by_cases hba : le b a = true
    · rw [insertLe, if_pos hba]
      refine List.pairwise_cons.mpr ⟨?_, ih ht⟩
      intro y hy
      rcases (mem_insertLe le a y t).mp hy with rfl | hyt
      · exact hba
      · exact hb y hyt
    · rw [insertLe, if_neg hba]
      have hab : le a b = true := by
        rcases htot a b with h1 | h1
        · exact h1
        · exact absurd h1 hba
      refine List.pairwise_cons.mpr ⟨?_, h⟩
      intro y hy
      rcases List.mem_cons.mp hy with rfl | hyt
      · exact hab
      · exact htr a b y hab (hb y hyt)

/-- Insertion sort sorts, given a total and transitive comparison. -/
theorem pairwise_isort {α : Type} (le : α → α → Bool)
    (htot : ∀ a b, le a b = true ∨ le b a = true)
    (htr : ∀ a b c, le a b = true → le b c = true → le a c = true)
    (l : List α) :
    (isort le l).Pairwise (fun x y => le x y = true) := by
  induction l with
  | nil => simp [isort]
  | cons a t ih => exact pairwise_insertLe le htot htr a _ ih

/-- A category appears in the grouping output iff it is not already
seen and some record carries it. -/
theorem mem_categoriesOfAux (x : String) (seen : List String) (l : Coll) :
    x ∈ categoriesOfAux seen l ↔
      x ∉ seen ∧ x ∈ l.map (fun r => r.category) := by
  induction l generalizing seen with
  | nil => simp [categoriesOfAux]
  | cons r rest ih =>
    by_cases hs : r.category ∈ seen
    · rw [categoriesOfAux, if_pos hs, ih]
      simp only [List.map_cons, List.mem_cons]
      constructor
      · rintro ⟨h1, h2⟩
        exact ⟨h1, Or.inr h2⟩
      · rintro ⟨h1, h2 | h2⟩
        · subst h2
          exact absurd hs h1
        · exact ⟨h1, h2⟩
    · rw [categoriesOfAux, if_neg hs]
      simp only [List.mem_cons, ih, List.map_cons]
      constructor
      · rintro (rfl | ⟨h1, h2⟩)
        · exact ⟨hs, Or.inl rfl⟩
        · exact ⟨fun hxs => h1 (Or.inr hxs), Or.inr h2⟩
      · rintro ⟨h1, rfl | h2⟩
        · exact Or.inl rfl
        · by_cases hx : x = r.category
          · exact Or.inl hx
          · exact Or.inr ⟨fun hor => hor.elim hx h1, h2⟩

/-- The grouping output lists each category at most once. -/
theorem nodup_categoriesOfAux (seen : List String) (l : Coll) :
    (categoriesOfAux seen l).Nodup := by
  induction l generalizing seen with
  | nil => simp [categoriesOfAux]
  | cons r rest ih =>
    by_cases hs : r.category ∈ seen
    · rw [categoriesOfAux, if_pos hs]
      exact ih seen
    · rw [categoriesOfAux, if_neg hs]
      refine List.nodup_cons.mpr ⟨?_, ih _⟩
      intro hmem
      exact ((mem_categoriesOfAux _ _ _).mp hmem).1 (List.mem_cons_self _ _)

/-- C6 counterexample: on an empty collection the stats response has no
`count`, `totalAmount` or `average` member at all (spreading the
`undefined` first aggregation element adds nothing) — in particular
`average` is neither 0 nor null; and the per-category list breaks a
total tie in grouping order, not by category name: with the Bonus
record first, the equal-total categories come out `["Salary",
"Bonus"]`, although `"Bonus" < "Salary"`. -/
theorem stats_shape_cex :
    (statsRoute []).count = none ∧
    (statsRoute []).totalAmount = none ∧
    (statsRoute []).average = none ∧
    ((statsRoute [⟨2, "b", 5, 2, "Bonus", 0, 0⟩, ⟨1, "a", 5, 1, "Salary", 0, 0⟩]).categories.map
        (fun c => c._id) = ["Salary", "Bonus"]) ∧
    ((statsRoute [⟨2, "b", 5, 2, "Bonus", 0, 0⟩, ⟨1, "a", 5, 1, "Salary", 0, 0⟩]).categories.map
        (fun c => c.total) = [5, 5]) ∧
    ("Bonus".data < "Salary".data) := by
  have hSB : ¬ ("Salary" : String) = "Bonus" := by decide
  have hBS : ¬ ("Bonus" : String) = "Salary" := by decide
  refine ⟨rfl, rfl, rfl, ?_, ?_, ?_⟩
  · norm_num [statsRoute, statsGroup, statsCategories, categoriesOf, categoriesOfAux,
      catStatOf, sumAmounts, catLe, isort, insertLe, List.filter_cons, List.filter_nil,
      List.map_cons, List.map_nil, List.sum_cons, List.sum_nil, hSB, hBS]
  · norm_num [statsRoute, statsGroup, statsCategories, categoriesOf, categoriesOfAux,
      catStatOf, sumAmounts, catLe, isort, insertLe, List.filter_cons, List.filter_nil,
      List.map_cons, List.map_nil, List.sum_cons, List.sum_nil, hSB, hBS]
  · decide

/-- C6 (amended): on a nonempty collection `stats` returns `count` = the
number of records, `totalAmount` = the sum of their amounts, `average` =
`totalAmount / count` rounded to 2 decimal places, and one entry per
distinct category present carrying that category's summed amount and
record count, sorted descending by summed amount — but with ties left
in grouping order rather than broken by category name; on an empty
collection the three scalar fields are simply absent. -/
theorem stats_claim (coll : Coll) (h : coll ≠ []) :
    (statsRoute coll).count = some coll.length ∧
    (statsRoute coll).totalAmount = some (sumAmounts coll) ∧
    (statsRoute coll).average =
      some (mongoRound2 (sumAmounts coll / (coll.length : ℚ))) ∧
    (statsRoute coll).categories.Pairwise (fun a b => b.total ≤ a.total) ∧
    (∀ cs ∈ (statsRoute coll).categories,
      cs.total = sumAmounts (coll.filter (fun r => decide (r.category = cs._id))) ∧
      cs.count = (coll.filter (fun r => decide (r.category = cs._id))).length) ∧
    ((statsRoute coll).categories.map (fun c => c._id)).Nodup ∧
    (∀ cat, cat ∈ (statsRoute coll).categories.map (fun c => c._id) ↔
      cat ∈ coll.map (fun r => r.category)) := by
  obtain ⟨r, rest, rfl⟩ : ∃ r rest, coll = r :: rest := by
    cases coll with
    | nil => exact absurd rfl h
    | cons r rest => exact ⟨r, rest, rfl⟩
  have hcats : (statsRoute (r :: rest)).categories = statsCategories (r :: rest) := by
    simp [statsRoute, statsGroup]
  have hperm : List.Perm (statsCategories (r :: rest))
      ((categoriesOf (r :: rest)).map (catStatOf (r :: rest))) :=
    isort_perm catLe _
  have hmapid : ((categoriesOf (r :: rest)).map (catStatOf (r :: rest))).map
      (fun c => c._id) = categoriesOf (r :: rest) := by
    rw [List.map_map]
    simp [Function.comp_def, catStatOf]
  refine ⟨?_, ?_, ?_, ?_, ?_, ?_, ?_⟩
  · simp [statsRoute, statsGroup]
  · simp [statsRoute, statsGroup]
  · simp [statsRoute, statsGroup]
  · rw [hcats]
    have hp := pairwise_isort catLe ?_ ?_ ((categoriesOf (r :: rest)).map (catStatOf (r :: rest)))
    · exact hp.imp (fun hxy => by simpa [catLe] using hxy)
    · intro a b
      rcases le_total b.total a.total with h1 | h1
      · exact Or.inl (by simpa [catLe] using h1)
      · exact Or.inr (by simpa [catLe] using h1)
    · intro a b c h1 h2
      simp only [catLe, decide_eq_true_eq] at h1 h2 ⊢
      exact h2.trans h1
  · intro cs hcs
    rw [hcats] at hcs
    have hcs2 : cs ∈ (categoriesOf (r :: rest)).map (catStatOf (r :: rest)) :=
      hperm.mem_iff.mp hcs
    rcases List.mem_map.mp hcs2 with ⟨cat, _, rfl⟩
    exact ⟨rfl, rfl⟩
  · rw [hcats]
    have : List.Perm ((statsCategories (r :: rest)).map (fun c => c._id)) (categoriesOf (r :: rest)) := by
      rw [← hmapid]
      exact hperm.map _
    exact this.nodup_iff.mpr (nodup_categoriesOfAux [] _)
  · intro cat
    rw [hcats]
    have hpm : List.Perm ((statsCategories (r :: rest)).map (fun c => c._id)) (categoriesOf (r :: rest)) := by
      rw [← hmapid]
      exact hperm.map _
    rw [hpm.mem_iff, categoriesOf, mem_categoriesOfAux]
    simp

/-- Witness for C6: the claim instantiated on a two-record collection. -/
theorem stats_witness :
    (statsRoute [⟨1, "a", 5, 1, "Salary", 0, 0⟩, ⟨2, "b", 7, 2, "Bonus", 0, 0⟩]).count = some 2 ∧
    (statsRoute [⟨1, "a", 5, 1, "Salary", 0, 0⟩, ⟨2, "b", 7, 2, "Bonus", 0, 0⟩]).totalAmount =
      some (sumAmounts [⟨1, "a", 5, 1, "Salary", 0, 0⟩, ⟨2, "b", 7, 2, "Bonus", 0, 0⟩]) ∧
    (statsRoute [⟨1, "a", 5, 1, "Salary", 0, 0⟩, ⟨2, "b", 7, 2, "Bonus", 0, 0⟩]).categories.Pairwise
      (fun a b => b.total ≤ a.total) := by
  have h := stats_claim [⟨1, "a", 5, 1, "Salary", 0, 0⟩, ⟨2, "b", 7, 2, "Bonus", 0, 0⟩]
    (by decide)
  exact ⟨h.1, h.2.1, h.2.2.2.1⟩

end IncomeApi
